import Mathlib

/-!
Shallow embedding of the core of `src/src-tauri/src/lib.rs` (an OAuth2 session
manager plus a cancellable, paginated bulk-fetch engine) and proofs about it.

Modelling conventions:
* `serde_json::Value` is the inductive `Json` below; numbers are integers.
* HTTP traffic is a parameter: every `reqwest` round-trip (send + status check
  + body read + JSON parse) is folded into an `Except String Json` value or a
  `String → Except String Json` function supplied by the environment.
* The process-wide cancellation flag (`CANCELLATION_FLAG` holding an
  `Arc<AtomicBool>`) is modelled by the sequence of values its atomic loads
  return: `cancel : Nat → Bool`, indexed by the number of loads performed so
  far. Whether the registry slot still holds a token is the `registry : Bool`
  field of the outputs (`false` = slot cleared).
* The token file is an `Option Json` (the parsed content of `tokens.json`);
  the text layer of serde round-trips is modelled at the JSON-tree level.
* Wall-clock reads (`chrono::Utc::now().timestamp()`) are the parameters
  `now`/`now2`. Network side effects are logged as a `List NetOp`.
* `chrono::DateTime::<Utc>::from_timestamp(ts, 0)` followed by `to_rfc3339()`
  is the parameter `fmt : Nat → Option String` (the timestamp reaching it is
  always non-negative because it is parsed from a digit run).
-/

namespace ExactGui

/-! ## Character-list string utilities

Core `String` functions such as `String.ltb` and `String.isPrefixOf` do not
reduce in the kernel, so the byte/char-level operations the Rust code performs
on strings are modelled over `List Char`. -/

/-- Lexicographic `≤` on character lists, by code point. UTF-8 byte order (what
Rust's `String::cmp` uses) coincides with code-point order. -/
def charListLe : List Char → List Char → Bool
  | [], _ => true
  | _ :: _, [] => false
  | a :: as, b :: bs =>
    if a.val.toNat < b.val.toNat then true
    else if b.val.toNat < a.val.toNat then false
    else charListLe as bs

/-- Lexicographic `≤` on strings, modelling Rust's `String` ordering. -/
def strLe (a b : String) : Bool := charListLe a.toList b.toList

/-- Check that `pre` is a prefix of `s`, over character lists. -/
def charsStart : List Char → List Char → Bool
  | [], _ => true
  | _ :: _, [] => false
  | a :: as, b :: bs => if a = b then charsStart as bs else false

/-- String prefix test used to model `str::strip_prefix`. -/
def strStartsWith (pre s : String) : Bool := charsStart pre.toList s.toList

/-- Model of `next.strip_prefix(&state.api).unwrap_or(&next)`: drop the API
base from the absolute next-page URL when it is a prefix, otherwise keep the
URL unchanged. -/
def stripApi (api nxt : String) : String :=
  if strStartsWith api nxt then String.mk (nxt.toList.drop api.toList.length) else nxt

/-! ## JSON values -/

/-- JSON values, modelling `serde_json::Value`. Numbers are modelled as
integers (the repository only produces and consumes integral numeric fields).
Objects are association lists; the parsed maps of `serde_json` have unique
keys, so first-match lookup agrees with map lookup. -/
inductive Json where
  | null : Json
  | bool : Bool → Json
  | num : Int → Json
  | str : String → Json
  | arr : List Json → Json
  | obj : List (String × Json) → Json

/-- Field lookup, modelling `serde_json::Value::get` with a string key: the
field of an object, `none` on every other variant. -/
def Json.getField : Json → String → Option Json
  | .obj fields, k => List.lookup k fields
  | _, _ => none

/-- Model of `Value::as_str`. -/
def Json.asStr : Json → Option String
  | .str s => some s
  | _ => none

/-- Model of `Value::as_i64`: a number in the `i64` range. -/
def Json.asI64 : Json → Option Int
  | .num n => if -(2 ^ 63) ≤ n ∧ n < 2 ^ 63 then some n else none
  | _ => none

/-- Model of a `serde` `i32` deserialization: a number in the `i32` range. -/
def Json.asI32 : Json → Option Int
  | .num n => if -(2 ^ 31) ≤ n ∧ n < 2 ^ 31 then some n else none
  | _ => none

/-- Rust's `as i32` cast from `i64`: two's-complement wrap-around. -/
def wrap32 (n : Int) : Int := Int.emod (n + 2 ^ 31) (2 ^ 32) - 2 ^ 31

/-- Lower-case hex digit. -/
def hexDigitLower (n : Nat) : Char :=
  if n < 10 then Char.ofNat (48 + n) else Char.ofNat (87 + n)

/-- Escape of one character inside a JSON string literal, as `serde_json`
prints it (`Display` for `Value`). -/
def escapeChar (c : Char) : String :=
  if c = '"' then "\\\""
  else if c = '\\' then "\\\\"
  else if c = '\n' then "\\n"
  else if c = '\r' then "\\r"
  else if c = '\t' then "\\t"
  else if c.toNat = 8 then "\\b"
  else if c.toNat = 12 then "\\f"
  else if c.toNat < 32 then
    "\\u00" ++ String.mk [hexDigitLower (c.toNat / 16), hexDigitLower (c.toNat % 16)]
  else String.singleton c

/-- Rendering of a JSON string literal with its quotes. -/
def renderStringLit (s : String) : String :=
  "\"" ++ (s.toList.map escapeChar).foldl (· ++ ·) "" ++ "\""

mutual

/-- Compact printing of a JSON value, modelling `Display for serde_json::Value`
(used by the `format!("... {}", error)` error messages). -/
def Json.render : Json → String
  | .null => "null"
  | .bool true => "true"
  | .bool false => "false"
  | .num n => toString n
  | .str s => renderStringLit s
  | .arr xs => "[" ++ Json.renderArr xs ++ "]"
  | .obj fs => "\x7b" ++ Json.renderObjFields fs ++ "\x7d"

/-- Comma-separated rendering of array elements. -/
def Json.renderArr : List Json → String
  | [] => ""
  | [x] => Json.render x
  | x :: xs => Json.render x ++ "," ++ Json.renderArr xs

/-- Comma-separated rendering of object fields. -/
def Json.renderObjFields : List (String × Json) → String
  | [] => ""
  | [(k, v)] => renderStringLit k ++ ":" ++ Json.render v
  | (k, v) :: fs => renderStringLit k ++ ":" ++ Json.render v ++ "," ++ Json.renderObjFields fs

end

/-! ## Token record and persistence

`TokenData` is the persisted record (`tokens.json`); `SessionTokens` is the
mutable token-holding part of `AppState`. The static configuration
(`api`, `client_id`, `client_secret`, `redirect_uri`) is carried separately
by the environments below where needed. -/

/-- The persisted token record, as in `struct TokenData`. -/
structure TokenData where
  access_token : String
  refresh_token : String
  refresh_at : Int
  current_division : Option Int

/-- The mutable session fields of `AppState`. -/
structure SessionTokens where
  access_token : Option String
  refresh_token : Option String
  refresh_at : Int
  current_division : Option Int

/-- Serialization of a `TokenData` to JSON, as `serde` derives it: fields in
declaration order, `None` as `null`. -/
def TokenData.toJson (t : TokenData) : Json :=
  .obj [("access_token", .str t.access_token),
        ("refresh_token", .str t.refresh_token),
        ("refresh_at", .num t.refresh_at),
        ("current_division", match t.current_division with
          | some d => .num d
          | none => .null)]

/-- Deserialization of an optional string field (`Option<String>` in `serde`):
missing or `null` is `none`, a string is `some`, anything else fails. -/
def parseOptString : Option Json → Option (Option String)
  | none => some none
  | some .null => some none
  | some (.str s) => some (some s)
  | some _ => none

/-- Deserialization of an optional `i32` field (`Option<i32>` in `serde`). -/
def parseOptI32 : Option Json → Option (Option Int)
  | none => some none
  | some .null => some none
  | some (.num n) => if -(2 ^ 31) ≤ n ∧ n < 2 ^ 31 then some (some n) else none
  | some _ => none

/-- Deserialization of a `TokenData`, as `serde` derives it: the three
mandatory fields must be present with the right types, `current_division` is
optional, unknown fields are ignored. -/
def TokenData.fromJson (j : Json) : Option TokenData :=
  match (j.getField "access_token").bind Json.asStr with
  | none => none
  | some a =>
    match (j.getField "refresh_token").bind Json.asStr with
    | none => none
    | some r =>
      match j.getField "refresh_at" with
      | some (.num at') =>
        if -(2 ^ 63) ≤ at' ∧ at' < 2 ^ 63 then
          match parseOptI32 (j.getField "current_division") with
          | some cd => some ⟨a, r, at', cd⟩
          | none => none
        else none
      | _ => none

/-- Validity of a `TokenData`: its numeric fields are representable in the
integer types of the Rust record (`i64` and `i32`). -/
def TokenData.valid (t : TokenData) : Prop :=
  (-(2 ^ 63) ≤ t.refresh_at ∧ t.refresh_at < 2 ^ 63) ∧
    (∀ d, t.current_division = some d → -(2 ^ 31) ≤ d ∧ d < 2 ^ 31)

/-- Model of `AppState::save_tokens`: build a `TokenData` from the in-memory
fields (failing with the source's messages when a token is missing) and
overwrite the token file with its JSON serialization. The filesystem write is
assumed to succeed. -/
def save_tokens (st : SessionTokens) (file : Option Json) :
    Option Json × Except String Unit :=
  match st.access_token with
  | none => (file, .error "No access token")
  | some a =>
    match st.refresh_token with
    | none => (file, .error "No refresh token")
    | some r =>
      (some (TokenData.toJson ⟨a, r, st.refresh_at, st.current_division⟩), .ok ())

/-- Model of `AppState::load_tokens`: read and parse the token file, setting
the in-memory fields on success and silently leaving them unchanged when the
file is absent or unparsable. -/
def load_tokens (st : SessionTokens) (file : Option Json) : SessionTokens :=
  match file with
  | none => st
  | some j =>
    match TokenData.fromJson j with
    | none => st
    | some td =>
      { st with
        access_token := some td.access_token,
        refresh_token := some td.refresh_token,
        refresh_at := td.refresh_at,
        current_division := td.current_division }

/-! ## Network operations and the authenticated GET -/

/-- Observable network side effects: a `POST {api}/oauth2/token` form exchange,
or an authenticated `GET {api}{path}`. -/
inductive NetOp where
  | tokenExchange : NetOp
  | httpGet : String → NetOp

/-- Model of `AppState::get`: fail with "Not authenticated" when no access
token is held (before any request is sent); otherwise issue the GET (recorded
as an op) and surface an in-body `error` field as a failure. The transport
status/read/parse failures of the round-trip are folded into the `http`
parameter. Note that `get` takes `&self`: it performs no session refresh and
mutates nothing. -/
def stateGet (st : SessionTokens) (path : String) (http : Except String Json) :
    List NetOp × Except String Json :=
  match st.access_token with
  | none => ([], .error "Not authenticated")
  | some _ =>
    ([.httpGet path],
      match http with
      | .error e => .error e
      | .ok j =>
        match j.getField "error" with
        | some err => .error ("API error: " ++ err.render)
        | none => .ok j)

/-- Output of the refresh operation: new session fields, new token file,
result, and the network operations performed. -/
structure RefreshOut where
  st : SessionTokens
  file : Option Json
  result : Except String Unit
  ops : List NetOp

/-- Model of `AppState::refresh_token`: a no-op while `refresh_at` is still in
the future; otherwise a `grant_type=refresh_token` exchange that replaces both
tokens from the response body, bumps `refresh_at` to `now2 + 570`, and
persists. `now` and `now2` are the two wall-clock reads; `http` is the folded
token-endpoint round-trip. -/
def refresh_token (st : SessionTokens) (file : Option Json)
    (http : Except String Json) (now now2 : Int) : RefreshOut :=
  if st.refresh_at > now then ⟨st, file, .ok (), []⟩
  else
    match st.refresh_token with
    | none => ⟨st, file, .error "No refresh token", []⟩
    | some _ =>
      match http with
      | .error e => ⟨st, file, .error e, [.tokenExchange]⟩
      | .ok j =>
        match j.getField "error" with
        | some err => ⟨st, file, .error ("Token refresh error: " ++ err.render), [.tokenExchange]⟩
        | none =>
          let st' : SessionTokens :=
            { st with
              access_token := (j.getField "access_token").bind Json.asStr,
              refresh_token := (j.getField "refresh_token").bind Json.asStr,
              refresh_at := now2 + 570 }
          match save_tokens st' file with
          | (file', res) => ⟨st', file', res, [.tokenExchange]⟩

/-! ## Page envelopes -/

/-- Deserialization of the inner `ApiData<Value>` (`results` plus the renamed
`__next` cursor), as `serde` derives it. -/
def parseApiData (j : Json) : Option (List Json × Option String) :=
  match j.getField "results" with
  | some (.arr rs) =>
    match parseOptString (j.getField "__next") with
    | some nxt => some (rs, nxt)
    | none => none
  | _ => none

/-- Deserialization of `ApiResponse<Value>`: an object with a `d` field that
parses as `ApiData`. -/
def parseApiResponse (j : Json) : Option (List Json × Option String) :=
  match j.getField "d" with
  | some d => parseApiData d
  | none => none

/-- Model of `AppState::fetch_current_division`: GET `/v1/current/Me`, then try
three response shapes in order (wrapped `d.results[0].CurrentDivision`, direct
`CurrentDivision`, nested `d.CurrentDivision`), storing the division (cast
`as i32`) on the first hit. -/
def fetch_current_division (st : SessionTokens) (http : Except String Json) :
    SessionTokens × Except String Unit × List NetOp :=
  match stateGet st "/v1/current/Me?$select=CurrentDivision" http with
  | (ops, .error e) => (st, .error e, ops)
  | (ops, .ok response) =>
    let shape1 : Option Int :=
      match parseApiResponse response with
      | some (rs, _) =>
        match rs.head? with
        | some first => (first.getField "CurrentDivision").bind Json.asI64
        | none => none
      | none => none
    match shape1 with
    | some dv => ({ st with current_division := some (wrap32 dv) }, .ok (), ops)
    | none =>
      match (response.getField "CurrentDivision").bind Json.asI64 with
      | some dv => ({ st with current_division := some (wrap32 dv) }, .ok (), ops)
      | none =>
        match (response.getField "d").bind
            (fun d => (d.getField "CurrentDivision").bind Json.asI64) with
        | some dv => ({ st with current_division := some (wrap32 dv) }, .ok (), ops)
        | none => (st, .error "Could not find CurrentDivision in response", ops)

/-- Output of the authentication command. -/
structure AuthOut where
  st : SessionTokens
  file : Option Json
  result : Except String Unit
  ops : List NetOp

/-- Model of the `authenticate_with_code` command: a
`grant_type=authorization_code` exchange (`tokenHttp`), failing on an in-body
`error` field before any mutation; on success both tokens are stored,
`refresh_at` is set to `now + 570`, the current division is fetched
best-effort (its failure is logged and ignored), and the record is
persisted. -/
def authenticate_with_code (st : SessionTokens) (file : Option Json)
    (tokenHttp : Except String Json) (now : Int) (meHttp : Except String Json) :
    AuthOut :=
  match tokenHttp with
  | .error e => ⟨st, file, .error e, [.tokenExchange]⟩
  | .ok tr =>
    match tr.getField "error" with
    | some err => ⟨st, file, .error ("Authentication error: " ++ err.render), [.tokenExchange]⟩
    | none =>
      let st1 : SessionTokens :=
        { st with
          access_token := (tr.getField "access_token").bind Json.asStr,
          refresh_token := (tr.getField "refresh_token").bind Json.asStr,
          refresh_at := now + 570 }
      match fetch_current_division st1 meHttp with
      | (st2, _divRes, meOps) =>
        match save_tokens st2 file with
        | (file', res) => ⟨st2, file', res, .tokenExchange :: meOps⟩

/-! ## The embedded-epoch-millisecond date pattern

Model of `Regex::new(r"/Date\((\d+)\)/").captures(s)`: leftmost match of the
literal `/Date(`, a non-empty greedy digit run, then `)/`; the capture is the
digit run. Greedy maximal digits are complete here: a shorter run would leave
a digit where `)` is required. `\d` is modelled as the ASCII digits. -/

/-- Strip a literal character list from the front, or fail. -/
def stripLit : List Char → List Char → Option (List Char)
  | [], cs => some cs
  | _ :: _, [] => none
  | l :: ls, c :: cs => if c = l then stripLit ls cs else none

/-- Split off the maximal leading digit run. -/
def takeDigits : List Char → List Char × List Char
  | [] => ([], [])
  | c :: cs =>
    if c.isDigit then
      match takeDigits cs with
      | (ds, rest) => (c :: ds, rest)
    else ([], c :: cs)

/-- Try to match the date pattern at the very start of `cs`, returning the
captured digit run. -/
def dateAt (cs : List Char) : Option String :=
  match stripLit "/Date(".toList cs with
  | none => none
  | some rest =>
    match takeDigits rest with
    | (ds, rest2) =>
      if ds.isEmpty then none
      else
        match stripLit ")/".toList rest2 with
        | none => none
        | some _ => some (String.mk ds)

/-- Leftmost match of the date pattern anywhere in the character list. -/
def findDateAux : List Char → Option String
  | [] => none
  | c :: cs =>
    match dateAt (c :: cs) with
    | some d => some d
    | none => findDateAux cs

/-- Leftmost capture of the embedded-epoch-millisecond pattern in `s`. -/
def findDateCapture (s : String) : Option String := findDateAux s.toList

/-- Numeric value of a digit run. -/
def digitsVal (cs : List Char) : Nat :=
  cs.foldl (fun acc c => acc * 10 + (c.toNat - 48)) 0

/-- Model of `captures[1].parse::<i64>()` on the captured digit run: the value
when it fits in an `i64`, failure on overflow. -/
def parseI64 (s : String) : Option Nat :=
  if s.toList.isEmpty then none
  else if s.toList.all Char.isDigit then
    if digitsVal s.toList < 2 ^ 63 then some (digitsVal s.toList) else none
  else none

/-- A transaction row: an open field map (a `HashMap` in the source, modelled
as an association list). -/
structure Transaction where
  data : List (String × Json)

/-- Per-field transformation of a transaction record, modelling the body of
the `for (key, value) in map` loop: a string field whose value matches the
date pattern is rewritten to `fmt (ms / 1000)` when the digit run parses as an
`i64` and the timestamp conversion succeeds (and kept verbatim otherwise);
object-valued fields are dropped; every other field passes through. -/
def processField (fmt : Nat → Option String) : String × Json → Option (String × Json)
  | (key, .str s) =>
    match findDateCapture s with
    | some ds =>
      match parseI64 ds with
      | some ms =>
        match fmt (ms / 1000) with
        | some out => some (key, .str out)
        | none => some (key, .str s)
      | none => some (key, .str s)
    | none => some (key, .str s)
  | (_, .obj _) => none
  | (key, v) => some (key, v)

/-- Per-record transformation: an object row becomes a `Transaction` with its
fields transformed; non-object rows are skipped (the source's
`if let Value::Object(map) = result`). -/
def processRecord (fmt : Nat → Option String) (j : Json) : Option Transaction :=
  match j with
  | .obj fields => some ⟨fields.filterMap (processField fmt)⟩
  | _ => none

/-! ## Divisions -/

/-- A division row, as in `struct Division` (field names kept). -/
structure Division where
  Code : Int
  CustomerName : String
  Description : String
  Customer : Option String
  CustomerCode : Option String

/-- Deserialization of one `Division`, as `serde` derives it: the three
mandatory fields with the right types, two optional strings, unknown fields
ignored. -/
def parseDivision (j : Json) : Option Division :=
  match j with
  | .obj _ =>
    match (j.getField "Code").bind Json.asI32,
          (j.getField "CustomerName").bind Json.asStr,
          (j.getField "Description").bind Json.asStr,
          parseOptString (j.getField "Customer"),
          parseOptString (j.getField "CustomerCode") with
    | some c, some n, some d, some cu, some cc => some ⟨c, n, d, cu, cc⟩
    | _, _, _, _, _ => none
  | _ => none

/-- Deserialization of `ApiResponse<Division>`: the generic envelope with every
row parsed as a `Division`. -/
def parseApiResponseDiv (j : Json) : Option (List Division × Option String) :=
  match parseApiResponse j with
  | some (rs, nxt) =>
    match rs.mapM parseDivision with
    | some ds => some (ds, nxt)
    | none => none
  | none => none

/-- Sort key of a division: the concatenation
`format!("{}{}", CustomerName, Description)`. -/
def divKey (d : Division) : String := d.CustomerName ++ d.Description

/-- Model of `all_results.sort_by(...)`: a stable sort ascending by `divKey`
(Rust's `sort_by` is stable, as is `List.mergeSort`). -/
def sortDivisions (ds : List Division) : List Division :=
  ds.mergeSort (fun a b => strLe (divKey a) (divKey b))

/-! ## Request paths -/

/-- Upper-case hex digit. -/
def hexDigitUpper (n : Nat) : Char :=
  if n < 10 then Char.ofNat (48 + n) else Char.ofNat (55 + n)

/-- Bytes left verbatim by `urlencoding::encode`: ASCII alphanumerics and
`-`, `_`, `.`, `~`. -/
def isUrlSafe (b : Nat) : Bool :=
  (65 ≤ b && b ≤ 90) || (97 ≤ b && b ≤ 122) || (48 ≤ b && b ≤ 57) ||
    b == 45 || b == 95 || b == 46 || b == 126

/-- Model of `urlencoding::encode`: percent-encode every UTF-8 byte outside
the unreserved set, with upper-case hex. -/
def urlencode (s : String) : String :=
  (s.toUTF8.toList.map (fun b =>
    let n := b.toNat
    if isUrlSafe n then String.singleton (Char.ofNat n)
    else "%" ++ String.mk [hexDigitUpper (n / 16), hexDigitUpper (n % 16)])).foldl (· ++ ·) ""

/-- The `$select` attribute list of `get_divisions`. -/
def divAttributes : String := "Code,Customer,CustomerCode,CustomerName,Description"

/-- The divisions request path for a division number. -/
def divisionsPath (division : Int) : String :=
  "/v1/" ++ toString division ++ "/system/Divisions?$select=" ++ divAttributes

/-- The `$select` attribute list of `get_transactions`. -/
def txAttributes : String := "AccountCode,AccountName,AmountDC,AmountFC,AmountVATBaseFC,AmountVATFC,AssetCode,AssetDescription,CostCenter,CostCenterDescription,CostUnit,CostUnitDescription,CreatorFullName,Currency,CustomField,Description,Division,Document,DocumentNumber,DocumentSubject,DueDate,EntryNumber,ExchangeRate,ExternalLinkDescription,ExternalLinkReference,ExtraDutyAmountFC,ExtraDutyPercentage,FinancialPeriod,FinancialYear,GLAccountCode,GLAccountDescription,InvoiceNumber,Item,ItemCode,ItemDescription,JournalCode,JournalDescription,LineType,Modified,ModifierFullName,Notes,OrderNumber,PaymentDiscountAmount,PaymentReference,Project,ProjectCode,ProjectDescription,Quantity,SerialNumber,ShopOrder,Status,Subscription,SubscriptionDescription,TrackingNumber,TrackingNumberDescription,Type,VATCode,VATCodeDescription,VATPercentage,VATType,YourRef"

/-- The optional `&$filter=` fragment: empty when the filter is absent or
blank, URL-encoded otherwise. -/
def filterStr (filter : Option String) : String :=
  match filter with
  | none => ""
  | some f => if f.trim.isEmpty then "" else "&$filter=" ++ urlencode f

/-- The transactions request path. -/
def transactionsPath (division : Int) (fstr : String) : String :=
  "/v1/" ++ toString division ++ "/bulk/Financial/TransactionLines?$select=" ++
    txAttributes ++ fstr

/-- The transactions count-probe path. -/
def countPath (division : Int) (fstr : String) : String :=
  "/v1/" ++ toString division ++ "/bulk/Financial/TransactionLines/$count" ++ fstr

/-! ## The paginated fetch engine -/

/-- A progress event, the payload of `app.emit("transaction-progress", ...)`. -/
structure Progress where
  current : Int
  total : Int
  message : String

/-- Environment of a fetch: the API base, the token-endpoint response for a
possible refresh, and the per-path result of every authenticated GET
round-trip. -/
structure FetchEnv where
  api : String
  refreshHttp : Except String Json
  http : String → Except String Json

/-- Output of a fetch loop: the result, whether the cancellation registry
still holds the token (`false` = cleared), the GETs performed, and the
progress events emitted. -/
structure LoopOut (α : Type) where
  result : Except String α
  registry : Bool
  ops : List NetOp
  events : List Progress

/-- The `while let Some(path) = next_path` loop of `get_divisions`: check the
cancellation flag, GET and decode the page, accumulate, follow the stripped
cursor. `fuel` bounds the number of iterations (the Rust loop is unbounded;
every theorem below supplies enough fuel for its page chain, which is what
termination means for a cursor chain of known length). `reads` counts the
atomic loads of the cancellation flag performed so far. -/
def divLoop (st : SessionTokens) (env : FetchEnv) (cancel : Nat → Bool) :
    Nat → String → List Division → Nat → List NetOp → LoopOut (List Division)
  | 0, _, _, _, ops => ⟨.error "fuel exhausted", true, ops, []⟩
  | fuel + 1, path, acc, reads, ops =>
    if cancel reads then ⟨.error "Operation cancelled by user", false, ops, []⟩
    else
      match stateGet st path (env.http path) with
      | (gops, .error e) => ⟨.error e, true, ops ++ gops, []⟩
      | (gops, .ok j) =>
        match parseApiResponseDiv j with
        | none => ⟨.error "Failed to parse divisions", true, ops ++ gops, []⟩
        | some (rs, nxt) =>
          match nxt with
          | none => ⟨.ok (acc ++ rs), false, ops ++ gops, []⟩
          | some n =>
            divLoop st env cancel fuel (stripApi env.api n) (acc ++ rs) (reads + 1)
              (ops ++ gops)

/-- Aggregate output of a command: final session fields, token file, registry
state, network operations, progress events, and the command's result. -/
structure CmdOut (α : Type) where
  st : SessionTokens
  file : Option Json
  registry : Bool
  ops : List NetOp
  events : List Progress
  result : Except String α

/-- Model of the `get_divisions` command: refresh the session if due, require
a current division, register a fresh cancellation token, run the paginated
loop, clear the registry on success or cancellation, and sort the accumulated
divisions once at the end. `reg0` is the registry slot's state before the
command. -/
def get_divisions_cmd (st : SessionTokens) (file : Option Json) (reg0 : Bool)
    (env : FetchEnv) (now now2 : Int) (cancel : Nat → Bool) (fuel : Nat) :
    CmdOut (List Division) :=
  match refresh_token st file env.refreshHttp now now2 with
  | ⟨st1, file1, .error e, rops⟩ => ⟨st1, file1, reg0, rops, [], .error e⟩
  | ⟨st1, file1, .ok _, rops⟩ =>
    match st1.current_division with
    | none =>
      ⟨st1, file1, reg0, rops, [],
        .error "No current division found. Please authenticate first."⟩
    | some d =>
      match divLoop st1 env cancel fuel (divisionsPath d) [] 0 [] with
      | ⟨.error e, reg, lops, _⟩ => ⟨st1, file1, reg, rops ++ lops, [], .error e⟩
      | ⟨.ok all, reg, lops, _⟩ =>
        ⟨st1, file1, reg, rops ++ lops, [], .ok (sortDivisions all)⟩

/-- The `while let Some(path) = next_path` loop of `get_transactions`: check
the cancellation flag, GET and decode the page, transform and accumulate the
rows, emit a progress event, re-check the flag, follow the stripped cursor.
`est` is the (possibly absent) total from the count probe, already cast
`as i32`. -/
def txLoop (st : SessionTokens) (env : FetchEnv) (cancel : Nat → Bool)
    (fmt : Nat → Option String) (est : Option Int) :
    Nat → String → List Transaction → Nat → List NetOp → List Progress →
      LoopOut (List Transaction)
  | 0, _, _, _, ops, events => ⟨.error "fuel exhausted", true, ops, events⟩
  | fuel + 1, path, acc, reads, ops, events =>
    if cancel reads then ⟨.error "Operation cancelled by user", false, ops, events⟩
    else
      match stateGet st path (env.http path) with
      | (gops, .error e) => ⟨.error e, true, ops ++ gops, events⟩
      | (gops, .ok j) =>
        match parseApiResponse j with
        | none => ⟨.error "Failed to parse transactions", true, ops ++ gops, events⟩
        | some (rs, nxt) =>
          let acc' := acc ++ rs.filterMap (processRecord fmt)
          let current : Int := acc'.length
          let message :=
            match est with
            | some t => "Fetched " ++ toString current ++ " of " ++ toString t ++
                " transactions..."
            | none => "Fetched " ++ toString current ++ " transactions so far..."
          let total : Int :=
            match est with
            | some t => t
            | none => -1
          let events' := events ++ [⟨current, total, message⟩]
          if cancel (reads + 1) then
            ⟨.error "Operation cancelled by user", false, ops ++ gops, events'⟩
          else
            match nxt with
            | none => ⟨.ok acc', false, ops ++ gops, events'⟩
            | some n =>
              txLoop st env cancel fmt est fuel (stripApi env.api n) acc' (reads + 2)
                (ops ++ gops) events'

/-- Model of the `get_transactions` command: refresh the session if due, build
the request paths, register a fresh cancellation token, issue the best-effort
count probe (a failure is non-fatal and leaves the total unknown), then run
the paginated loop. -/
def get_transactions_cmd (st : SessionTokens) (file : Option Json) (reg0 : Bool)
    (env : FetchEnv) (now now2 : Int) (cancel : Nat → Bool)
    (fmt : Nat → Option String) (division : Int) (filter : Option String)
    (fuel : Nat) : CmdOut (List Transaction) :=
  match refresh_token st file env.refreshHttp now now2 with
  | ⟨st1, file1, .error e, rops⟩ => ⟨st1, file1, reg0, rops, [], .error e⟩
  | ⟨st1, file1, .ok _, rops⟩ =>
    let fstr := filterStr filter
    let path := transactionsPath division fstr
    let cpath := countPath division fstr
    match stateGet st1 cpath (env.http cpath) with
    | (cops, .error _) =>
      match txLoop st1 env cancel fmt none fuel path [] 0 [] [] with
      | ⟨res, reg, lops, evs⟩ => ⟨st1, file1, reg, rops ++ cops ++ lops, evs, res⟩
    | (cops, .ok cj) =>
      if cancel 0 then
        ⟨st1, file1, false, rops ++ cops, [], .error "Operation cancelled by user"⟩
      else
        match Json.asI64 cj with
        | some n =>
          let ev0 : Progress :=
            ⟨0, n, "Found " ++ toString n ++ " transactions, starting fetch..."⟩
          match txLoop st1 env cancel fmt (some (wrap32 n)) fuel path [] 1 [] [ev0] with
          | ⟨res, reg, lops, evs⟩ => ⟨st1, file1, reg, rops ++ cops ++ lops, evs, res⟩
        | none =>
          match txLoop st1 env cancel fmt none fuel path [] 1 [] [] with
          | ⟨res, reg, lops, evs⟩ => ⟨st1, file1, reg, rops ++ cops ++ lops, evs, res⟩

/-! ## Cursor chains

A chain of `n` pages reachable from a starting path: every page decodes, links
to the next page via its `__next` cursor (normalized by `stripApi`), and the
final page carries no cursor. The `getField "error" = none` conditions say the
provider did not signal an in-body error, so `AppState::get` succeeds. -/

/-- A transactions page chain: `pages` are the raw `results` rows of each
page, in page order. -/
inductive TxChain (env : FetchEnv) : String → List (List Json) → Prop where
  | last : ∀ path j rs, env.http path = .ok j → j.getField "error" = none →
      parseApiResponse j = some (rs, none) → TxChain env path [rs]
  | step : ∀ path j rs nxt rest, env.http path = .ok j → j.getField "error" = none →
      parseApiResponse j = some (rs, some nxt) →
      TxChain env (stripApi env.api nxt) rest → TxChain env path (rs :: rest)

/-- A divisions page chain: `pages` are the decoded `Division` rows of each
page, in page order. -/
inductive DivChain (env : FetchEnv) : String → List (List Division) → Prop where
  | last : ∀ path j rs, env.http path = .ok j → j.getField "error" = none →
      parseApiResponseDiv j = some (rs, none) → DivChain env path [rs]
  | step : ∀ path j rs nxt rest, env.http path = .ok j → j.getField "error" = none →
      parseApiResponseDiv j = some (rs, some nxt) →
      DivChain env (stripApi env.api nxt) rest → DivChain env path (rs :: rest)

/-- Run of `refresh_token` when the deadline is still in the future: a complete
no-op. -/
theorem refresh_token_noop (st : SessionTokens) (file : Option Json)
    (http : Except String Json) (now now2 : Int) (h : st.refresh_at > now) :
    refresh_token st file http now now2 = ⟨st, file, .ok (), []⟩ := by
  unfold refresh_token
  rw [if_pos h]

/-- Run of the transactions loop over a page chain with the cancellation flag
never set: it consumes one page per fuel unit and returns the accumulated,
per-record-transformed rows with the registry cleared. -/
theorem txLoop_chain (env : FetchEnv) (st : SessionTokens) (tok : String)
    (cancel : Nat → Bool) (fmt : Nat → Option String) (est : Option Int)
    (hacc : st.access_token = some tok) (hc : ∀ i, cancel i = false) :
    ∀ pages path, TxChain env path pages →
      ∀ fuel acc reads ops events, pages.length ≤ fuel →
        (txLoop st env cancel fmt est fuel path acc reads ops events).result =
          .ok (acc ++ (pages.map fun rs => rs.filterMap (processRecord fmt)).flatten) ∧
        (txLoop st env cancel fmt est fuel path acc reads ops events).registry = false := by
  intro pages path h
  induction h with
  | last path j rs hh he hp =>
    intro fuel acc reads ops events hlen
    obtain ⟨f, rfl⟩ : ∃ f, fuel = f + 1 := ⟨fuel - 1, by simp at hlen; omega⟩
    simp [txLoop, hc, stateGet, hacc, hh, he, hp]
  | step path j rs nxt rest hh he hp _hch ih =>
    intro fuel acc reads ops events hlen
    obtain ⟨f, rfl⟩ : ∃ f, fuel = f + 1 := ⟨fuel - 1, by simp at hlen; omega⟩
    have hlen' : rest.length ≤ f := by simp at hlen; omega
    simp only [txLoop, hc, stateGet, hacc, hh, he, hp, Bool.false_eq_true, if_false]
    refine ⟨((ih f _ _ _ _ hlen').1).trans ?_, (ih f _ _ _ _ hlen').2⟩
    simp [List.append_assoc]

/-- Run of the divisions loop over a page chain with the cancellation flag
never set: it returns the concatenation of all pages' rows, in page order,
with the registry cleared. -/
theorem divLoop_chain (env : FetchEnv) (st : SessionTokens) (tok : String)
    (cancel : Nat → Bool)
    (hacc : st.access_token = some tok) (hc : ∀ i, cancel i = false) :
    ∀ pages path, DivChain env path pages →
      ∀ fuel acc reads ops, pages.length ≤ fuel →
        (divLoop st env cancel fuel path acc reads ops).result = .ok (acc ++ pages.flatten) ∧
        (divLoop st env cancel fuel path acc reads ops).registry = false := by
  intro pages path h
  induction h with
  | last path j rs hh he hp =>
    intro fuel acc reads ops hlen
    obtain ⟨f, rfl⟩ : ∃ f, fuel = f + 1 := ⟨fuel - 1, by simp at hlen; omega⟩
    simp [divLoop, hc, stateGet, hacc, hh, he, hp]
  | step path j rs nxt rest hh he hp _hch ih =>
    intro fuel acc reads ops hlen
    obtain ⟨f, rfl⟩ : ∃ f, fuel = f + 1 := ⟨fuel - 1, by simp at hlen; omega⟩
    have hlen' : rest.length ≤ f := by simp at hlen; omega
    simp only [divLoop, hc, stateGet, hacc, hh, he, hp, Bool.false_eq_true, if_false]
    refine ⟨((ih f _ _ _ hlen').1).trans ?_, (ih f _ _ _ hlen').2⟩
    simp [List.append_assoc]

/-! ## Network-operation shape lemmas -/

/-- Predicate picking out token-endpoint exchanges among network operations. -/
def isExchange : NetOp → Bool
  | .tokenExchange => true
  | .httpGet _ => false

/-- Operations of one `get`: at most one GET, never a token exchange. -/
theorem stateGet_ops (st : SessionTokens) (path : String) (http : Except String Json) :
    (stateGet st path http).1 = [] ∨ (stateGet st path http).1 = [NetOp.httpGet path] := by
  cases h : st.access_token <;> simp [stateGet, h]

/-- One `get` performs no token exchange. -/
theorem stateGet_no_exchange (st : SessionTokens) (path : String)
    (http : Except String Json) :
    ((stateGet st path http).1).filter isExchange = [] := by
  rcases stateGet_ops st path http with h | h <;> simp [h, isExchange]

/-- Operations of one refresh attempt: at most one token exchange. -/
theorem refresh_token_ops (st : SessionTokens) (file : Option Json)
    (http : Except String Json) (now now2 : Int) :
    (refresh_token st file http now now2).ops = [] ∨
      (refresh_token st file http now now2).ops = [NetOp.tokenExchange] := by
  unfold refresh_token
  repeat' split
  all_goals simp

/-- The transactions loop never performs a token exchange: filtering its
operation log for exchanges gives back exactly the exchanges it started
with. -/
theorem txLoop_no_exchange (st : SessionTokens) (env : FetchEnv) (cancel : Nat → Bool)
    (fmt : Nat → Option String) (est : Option Int) :
    ∀ fuel path acc reads ops events,
      ((txLoop st env cancel fmt est fuel path acc reads ops events).ops).filter isExchange =
        ops.filter isExchange := by
  intro fuel
  induction fuel with
  | zero => intro path acc reads ops events; simp [txLoop]
  | succ f ih =>
    intro path acc reads ops events
    by_cases hcr : cancel reads
    · simp [txLoop, hcr]
    · rcases hsg : stateGet st path (env.http path) with ⟨gops, res⟩
      have hg : gops.filter isExchange = [] := by
        have := stateGet_no_exchange st path (env.http path)
        rw [hsg] at this
        exact this
      cases res with
      | error e => simp [txLoop, hcr, hsg, List.filter_append, hg]
      | ok j =>
        cases hp : parseApiResponse j with
        | none => simp [txLoop, hcr, hsg, hp, List.filter_append, hg]
        | some pr =>
          rcases pr with ⟨rs, nxt⟩
          by_cases hcr2 : cancel (reads + 1)
          · simp [txLoop, hcr, hsg, hp, hcr2, List.filter_append, hg]
          · cases nxt with
            | none => simp [txLoop, hcr, hsg, hp, hcr2, List.filter_append, hg]
            | some n =>
              simp only [txLoop, hcr, hsg, hp, hcr2, Bool.false_eq_true, if_false]
              rw [ih]
              simp [List.filter_append, hg]

/-! ## Order facts about the division sort key -/

/-- Transitivity of the lexicographic character-list order. -/
theorem charListLe_trans :
    ∀ as bs cs, charListLe as bs = true → charListLe bs cs = true →
      charListLe as cs = true := by
  intro as
  induction as with
  | nil => intro bs cs _ _; simp [charListLe]
  | cons a as ih =>
    intro bs cs h1 h2
    cases bs with
    | nil => simp [charListLe] at h1
    | cons b bs =>
      cases cs with
      | nil => simp [charListLe] at h2
      | cons c cs =>
        by_cases hab : a.val.toNat < b.val.toNat
        · by_cases hbc : b.val.toNat < c.val.toNat
          · have hac : a.val.toNat < c.val.toNat := by omega
            simp [charListLe, hac]
          · by_cases hcb : c.val.toNat < b.val.toNat
            · simp [charListLe, hbc, hcb] at h2
            · have hac : a.val.toNat < c.val.toNat := by omega
              simp [charListLe, hac]
        · by_cases hba : b.val.toNat < a.val.toNat
          · simp [charListLe, hab, hba] at h1
          · simp only [charListLe, if_neg hab, if_neg hba] at h1
            by_cases hbc : b.val.toNat < c.val.toNat
            · have hac : a.val.toNat < c.val.toNat := by omega
              simp [charListLe, hac]
            · by_cases hcb : c.val.toNat < b.val.toNat
              · simp [charListLe, hbc, hcb] at h2
              · simp only [charListLe, if_neg hbc, if_neg hcb] at h2
                have hac : ¬ a.val.toNat < c.val.toNat := by omega
                have hca : ¬ c.val.toNat < a.val.toNat := by omega
                simp only [charListLe, if_neg hac, if_neg hca]
                exact ih bs cs h1 h2

/-- Totality of the lexicographic character-list order. -/
theorem charListLe_total :
    ∀ as bs, (charListLe as bs || charListLe bs as) = true := by
  intro as
  induction as with
  | nil => intro bs; simp [charListLe]
  | cons a as ih =>
    intro bs
    cases bs with
    | nil => simp [charListLe]
    | cons b bs =>
      by_cases hab : a.val.toNat < b.val.toNat
      · simp [charListLe, hab]
      · by_cases hba : b.val.toNat < a.val.toNat
        · simp [charListLe, hab, hba]
        · simp only [charListLe, if_neg hab, if_neg hba]
          exact ih bs

/-- Transitivity of the division comparator. -/
theorem divLe_trans (a b c : Division) :
    strLe (divKey a) (divKey b) = true → strLe (divKey b) (divKey c) = true →
      strLe (divKey a) (divKey c) = true :=
  charListLe_trans _ _ _

/-- Totality of the division comparator. -/
theorem divLe_total (a b : Division) :
    (strLe (divKey a) (divKey b) || strLe (divKey b) (divKey a)) = true :=
  charListLe_total _ _

/-- The division sort produces a list that is pairwise ordered by the sort
key. -/
theorem sortDivisions_sorted (ds : List Division) :
    (sortDivisions ds).Pairwise (fun a b => strLe (divKey a) (divKey b) = true) :=
  @List.sorted_mergeSort Division (fun a b => strLe (divKey a) (divKey b))
    (fun a b c => divLe_trans a b c) (fun a b => divLe_total a b) ds

/-! ## Command-level success runs -/

/-- Successful run of the `get_transactions` command over a page chain: with
the session holding an access token, the refresh not due, and the flag never
set, the command returns the concatenation of the per-record-transformed rows
of all pages, in page order, and clears the registry — whatever the count
probe returned. -/
theorem get_transactions_cmd_ok (env : FetchEnv) (st : SessionTokens)
    (file : Option Json) (reg0 : Bool) (now now2 : Int) (tok : String)
    (cancel : Nat → Bool) (fmt : Nat → Option String) (division : Int)
    (filter : Option String) (pages : List (List Json)) (fuel : Nat)
    (hacc : st.access_token = some tok) (hra : st.refresh_at > now)
    (hc : ∀ i, cancel i = false)
    (hchain : TxChain env (transactionsPath division (filterStr filter)) pages)
    (hfuel : pages.length ≤ fuel) :
    (get_transactions_cmd st file reg0 env now now2 cancel fmt division filter fuel).result =
      .ok ((pages.map fun rs => rs.filterMap (processRecord fmt)).flatten) ∧
    (get_transactions_cmd st file reg0 env now now2 cancel fmt division filter fuel).registry =
      false := by
  have hnoop := refresh_token_noop st file env.refreshHttp now now2 hra
  have hloop := txLoop_chain env st tok cancel fmt
  simp only [get_transactions_cmd, hnoop]
  rcases hsg : stateGet st (countPath division (filterStr filter))
      (env.http (countPath division (filterStr filter))) with ⟨cops, cres⟩
  cases cres with
  | error e =>
    simp only [hsg]
    rcases hlo : txLoop st env cancel fmt none fuel
        (transactionsPath division (filterStr filter)) [] 0 [] [] with ⟨res, reg, lops, evs⟩
    have h := hloop none hacc hc pages _ hchain fuel [] 0 [] [] hfuel
    rw [hlo] at h
    simpa using h
  | ok cj =>
    simp only [hsg, hc 0, Bool.false_eq_true, if_false]
    cases hcj : Json.asI64 cj with
    | some n =>
      simp only
      rcases hlo : txLoop st env cancel fmt (some (wrap32 n)) fuel
          (transactionsPath division (filterStr filter)) [] 1 []
          [⟨0, n, "Found " ++ toString n ++ " transactions, starting fetch..."⟩] with
        ⟨res, reg, lops, evs⟩
      have h := hloop (some (wrap32 n)) hacc hc pages _ hchain fuel [] 1 []
        [⟨0, n, "Found " ++ toString n ++ " transactions, starting fetch..."⟩] hfuel
      rw [hlo] at h
      simpa using h
    | none =>
      simp only
      rcases hlo : txLoop st env cancel fmt none fuel
          (transactionsPath division (filterStr filter)) [] 1 [] [] with ⟨res, reg, lops, evs⟩
      have h := hloop none hacc hc pages _ hchain fuel [] 1 [] [] hfuel
      rw [hlo] at h
      simpa using h

/-- Successful run of the `get_divisions` command over a page chain: it
returns all pages' divisions accumulated in page order and then sorted once,
and clears the registry. -/
theorem get_divisions_cmd_ok (env : FetchEnv) (st : SessionTokens)
    (file : Option Json) (reg0 : Bool) (now now2 : Int) (tok : String)
    (cancel : Nat → Bool) (d : Int) (pages : List (List Division)) (fuel : Nat)
    (hacc : st.access_token = some tok) (hra : st.refresh_at > now)
    (hdiv : st.current_division = some d) (hc : ∀ i, cancel i = false)
    (hchain : DivChain env (divisionsPath d) pages)
    (hfuel : pages.length ≤ fuel) :
    (get_divisions_cmd st file reg0 env now now2 cancel fuel).result =
      .ok (sortDivisions pages.flatten) ∧
    (get_divisions_cmd st file reg0 env now now2 cancel fuel).registry = false := by
  have hnoop := refresh_token_noop st file env.refreshHttp now now2 hra
  simp only [get_divisions_cmd, hnoop, hdiv]
  rcases hlo : divLoop st env cancel fuel (divisionsPath d) [] 0 [] with ⟨res, reg, lops, evs⟩
  have h := divLoop_chain env st tok cancel hacc hc pages _ hchain fuel [] 0 [] hfuel
  rw [hlo] at h
  rcases h with ⟨h1, h2⟩
  simp only at h1 h2
  subst h1 h2
  simp

/-! ## Round-trip of the token record -/

/-- Deserializing the serialization of a valid token record restores it. -/
theorem fromJson_toJson (td : TokenData) (hv : td.valid) :
    TokenData.fromJson td.toJson = some td := by
  obtain ⟨a, r, at', cd⟩ := td
  obtain ⟨⟨h1, h2⟩, h3⟩ := hv
  simp only at h1 h2
  cases cd with
  | none =>
    simp [TokenData.toJson, TokenData.fromJson, Json.getField, List.lookup, Json.asStr,
      parseOptI32]
    omega
  | some d =>
    have hd := h3 d rfl
    simp only at hd
    simp [TokenData.toJson, TokenData.fromJson, Json.getField, List.lookup, Json.asStr,
      parseOptI32]
    split_ifs with hi32
    · exact ⟨⟨by omega, by omega⟩, rfl⟩
    · omega

/-! ## Claim theorems -/

/-- C7: for every session whose `refresh_at` lies strictly in the future,
`refresh_token` (the refresh-if-needed operation) performs no network call
and leaves the session fields, including both tokens and the persisted
record, entirely unchanged. -/
theorem c7_refresh_if_needed_noop (st : SessionTokens) (file : Option Json)
    (http : Except String Json) (now now2 : Int) (h : st.refresh_at > now) :
    refresh_token st file http now now2 = ⟨st, file, .ok (), []⟩ :=
  refresh_token_noop st file http now now2 h

/-- Witness for C7 at a concrete session with a future deadline. -/
theorem c7_witness :
    refresh_token ⟨some "a", some "r", 100, none⟩ (some (Json.str "f")) (.error "net") 0 0 =
      ⟨⟨some "a", some "r", 100, none⟩, some (Json.str "f"), .ok (), []⟩ :=
  c7_refresh_if_needed_noop _ _ _ _ _ (by decide)

/-- C8: persisting any valid token record with `save_tokens` and reloading it
with `load_tokens` yields an identical record: the write succeeds and the
loaded session holds exactly the record's four fields. -/
theorem c8_token_roundtrip (td : TokenData) (st1 st2 : SessionTokens)
    (file : Option Json) (hv : td.valid)
    (ha : st1.access_token = some td.access_token)
    (hr : st1.refresh_token = some td.refresh_token)
    (hat : st1.refresh_at = td.refresh_at)
    (hd : st1.current_division = td.current_division) :
    save_tokens st1 file = (some td.toJson, .ok ()) ∧
    load_tokens st2 (some td.toJson) =
      { st2 with
        access_token := some td.access_token,
        refresh_token := some td.refresh_token,
        refresh_at := td.refresh_at,
        current_division := td.current_division } := by
  constructor
  · rcases td with ⟨a, r, at', cd⟩
    simp only at ha hr hat hd
    simp [save_tokens, ha, hr, hat, hd]
  · simp [load_tokens, fromJson_toJson td hv]

/-- Witness for C8 at a concrete token record. -/
theorem c8_witness :
    save_tokens ⟨some "A", some "R", 42, some 7⟩ none =
      (some (TokenData.toJson ⟨"A", "R", 42, some 7⟩), .ok ()) ∧
    load_tokens ⟨none, none, 0, none⟩ (some (TokenData.toJson ⟨"A", "R", 42, some 7⟩)) =
      ⟨some "A", some "R", 42, some 7⟩ :=
  c8_token_roundtrip ⟨"A", "R", 42, some 7⟩ ⟨some "A", some "R", 42, some 7⟩
    ⟨none, none, 0, none⟩ none
    (by refine ⟨⟨by decide, by decide⟩, ?_⟩; intro d hd; cases hd; exact ⟨by decide, by decide⟩)
    rfl rfl rfl rfl

/-- C9: when the token endpoint's parsed response carries an `error` field,
`authenticate_with_code` fails with the authentication error and the session
fields and the persisted token file are exactly as before the call. -/
theorem c9_auth_error_atomic (st : SessionTokens) (file : Option Json)
    (tr e : Json) (now : Int) (meHttp : Except String Json)
    (herr : tr.getField "error" = some e) :
    authenticate_with_code st file (.ok tr) now meHttp =
      ⟨st, file, .error ("Authentication error: " ++ e.render), [.tokenExchange]⟩ := by
  simp [authenticate_with_code, herr]

/-- Witness for C9 at a concrete error response. -/
theorem c9_witness :
    authenticate_with_code ⟨some "old", some "oldr", 3, some 9⟩ (some (Json.str "f"))
        (.ok (Json.obj [("error", Json.str "invalid_grant")])) 5 (.error "unused") =
      ⟨⟨some "old", some "oldr", 3, some 9⟩, some (Json.str "f"),
        .error ("Authentication error: " ++ (Json.str "invalid_grant").render),
        [.tokenExchange]⟩ :=
  c9_auth_error_atomic _ _ _ _ _ _ rfl

/-- Counterexample to C10 as stated: with a due refresh and a parseable body
holding neither `error` nor `access_token` but a `refresh_token` string, the
refresh operation does NOT clear the in-memory refresh token — it replaces it
with the body's value — while indeed failing with the persistence error. -/
theorem c10_counterexample :
    (refresh_token ⟨some "a", some "r", 0, none⟩ none
        (.ok (Json.obj [("refresh_token", Json.str "r2")])) 1 1).st.refresh_token =
      some "r2" ∧
    (refresh_token ⟨some "a", some "r", 0, none⟩ none
        (.ok (Json.obj [("refresh_token", Json.str "r2")])) 1 1).result =
      .error "No access token" := ⟨rfl, rfl⟩

/-- C10 (amended): when the refresh is due and the provider's parseable body
contains neither an `error` field nor an `access_token` field, the refresh
clears the in-memory access token, replaces the refresh token with the body's
`refresh_token` string field (clearing it when that field is absent or not a
string), bumps `refresh_at`, and fails with the error from persisting a
record without an access token, leaving the token file unchanged — the
session ends unauthenticated rather than unchanged. -/
theorem c10_refresh_malformed_body (st : SessionTokens) (file : Option Json)
    (j : Json) (now now2 : Int) (rt : String)
    (hdue : ¬ st.refresh_at > now) (hrt : st.refresh_token = some rt)
    (herr : j.getField "error" = none) (hacc : j.getField "access_token" = none) :
    refresh_token st file (.ok j) now now2 =
      ⟨{ st with
          access_token := none,
          refresh_token := (j.getField "refresh_token").bind Json.asStr,
          refresh_at := now2 + 570 }, file, .error "No access token",
        [.tokenExchange]⟩ := by
  simp [refresh_token, hdue, hrt, herr, hacc, save_tokens]

/-- Witness for the amended C10 at a concrete body without tokens. -/
theorem c10_witness :
    refresh_token ⟨some "a", some "r", 0, some 3⟩ (some (Json.str "f"))
        (.ok (Json.obj [("note", Json.str "x")])) 1 2 =
      ⟨⟨none, none, 572, some 3⟩, some (Json.str "f"), .error "No access token",
        [.tokenExchange]⟩ := by
  have h := c10_refresh_malformed_body ⟨some "a", some "r", 0, some 3⟩
    (some (Json.str "f")) (Json.obj [("note", Json.str "x")]) 1 2 "r"
    (by decide) rfl rfl rfl
  simpa using h

/-! ## Concrete material for witnesses -/

/-- Page envelope builder: `{"d": {"results": [...], "__next": ...}}`. -/
def mkPage (rs : List Json) (nxt : Option String) : Json :=
  Json.obj [("d", Json.obj [("results", Json.arr rs),
    ("__next", match nxt with
      | some s => Json.str s
      | none => Json.null)])]

/-- A concrete division row. -/
def divA : Division := ⟨1, "b", "x", none, none⟩

/-- Another concrete division row, with a smaller sort key. -/
def divB : Division := ⟨2, "a", "y", none, none⟩

/-- JSON form of `divA`. -/
def divJsonA : Json :=
  Json.obj [("Code", .num 1), ("CustomerName", .str "b"), ("Description", .str "x"),
    ("Customer", .null), ("CustomerCode", .null)]

/-- JSON form of `divB`. -/
def divJsonB : Json :=
  Json.obj [("Code", .num 2), ("CustomerName", .str "a"), ("Description", .str "y"),
    ("Customer", .null), ("CustomerCode", .null)]

/-- Two-page divisions server: `/q1` links to `/q2` via an absolute cursor. -/
def envDiv : FetchEnv :=
  ⟨"A", .error "unused", fun p =>
    if p = "/q1" then .ok (mkPage [divJsonA] (some "A/q2"))
    else if p = "/q2" then .ok (mkPage [divJsonB] none)
    else .error "404"⟩

/-- One-page divisions server answering the built divisions path. -/
def envDivCmd : FetchEnv :=
  ⟨"A", .error "unused", fun p =>
    if p = divisionsPath 1 then .ok (mkPage [divJsonA, divJsonB] none)
    else .error "404"⟩

/-- A concrete transaction row. -/
def txRec : Json := Json.obj [("A", Json.num 3)]

/-- One-page transactions server whose count probe fails. -/
def envTx : FetchEnv :=
  ⟨"A", .error "unused", fun p =>
    if p = countPath 1 "" then .error "probe down"
    else .ok (mkPage [txRec] none)⟩

/-- A session with an access token and a refresh deadline in the future. -/
def stFresh : SessionTokens := ⟨some "t", some "r", 1, some 1⟩

/-- C1: over any chain of `N` pages each linking to the next via a cursor and
a final page with no cursor, the paginated fetch terminates (with fuel `N`)
and returns the concatenation of all pages' records in page order — as the
bare accumulation loop in `get_divisions`, and as the decoded transactions of
the full `get_transactions` command — clearing the cancellation registry on
success. -/
theorem c1_pagination :
    (∀ (env : FetchEnv) (st : SessionTokens) (tok : String) (cancel : Nat → Bool)
        (pages : List (List Division)) (path : String) (fuel : Nat),
      st.access_token = some tok → (∀ i, cancel i = false) →
      DivChain env path pages → pages.length ≤ fuel →
      (divLoop st env cancel fuel path [] 0 []).result = .ok pages.flatten ∧
      (divLoop st env cancel fuel path [] 0 []).registry = false) ∧
    (∀ (env : FetchEnv) (st : SessionTokens) (file : Option Json) (reg0 : Bool)
        (now now2 : Int) (tok : String) (cancel : Nat → Bool) (fmt : Nat → Option String)
        (division : Int) (filter : Option String) (pages : List (List Json)) (fuel : Nat),
      st.access_token = some tok → st.refresh_at > now → (∀ i, cancel i = false) →
      TxChain env (transactionsPath division (filterStr filter)) pages →
      pages.length ≤ fuel →
      (get_transactions_cmd st file reg0 env now now2 cancel fmt division filter fuel).result =
        .ok ((pages.map fun rs => rs.filterMap (processRecord fmt)).flatten) ∧
      (get_transactions_cmd st file reg0 env now now2 cancel fmt division filter fuel).registry =
        false) := by
  constructor
  · intro env st tok cancel pages path fuel hacc hc hchain hfuel
    have h := divLoop_chain env st tok cancel hacc hc pages path hchain fuel [] 0 [] hfuel
    simpa using h
  · intro env st file reg0 now now2 tok cancel fmt division filter pages fuel hacc hra hc
      hchain hfuel
    exact get_transactions_cmd_ok env st file reg0 now now2 tok cancel fmt division filter
      pages fuel hacc hra hc hchain hfuel

/-- Witness for C1: a concrete two-page divisions chain and a concrete
one-page transactions run. -/
theorem c1_witness :
    ((divLoop stFresh envDiv (fun _ => false) 2 "/q1" [] 0 []).result = .ok [divA, divB] ∧
      (divLoop stFresh envDiv (fun _ => false) 2 "/q1" [] 0 []).registry = false) ∧
    ((get_transactions_cmd stFresh none true envTx 0 0 (fun _ => false) (fun _ => none)
        1 none 1).result = .ok [⟨[("A", Json.num 3)]⟩] ∧
      (get_transactions_cmd stFresh none true envTx 0 0 (fun _ => false) (fun _ => none)
        1 none 1).registry = false) :=
  ⟨c1_pagination.1 envDiv stFresh "t" (fun _ => false) [[divA], [divB]] "/q1" 2 rfl
      (fun _ => rfl)
      (DivChain.step _ _ _ _ _ rfl rfl rfl (DivChain.last _ _ _ rfl rfl rfl)) (by decide),
    c1_pagination.2 envTx stFresh none true 0 0 "t" (fun _ => false) (fun _ => none) 1 none
      [[txRec]] 1 rfl (by decide) (fun _ => rfl) (TxChain.last _ _ _ rfl rfl rfl) (by decide)⟩

/-- C5: over any multi-page divisions chain, `get_divisions` returns exactly
the one-shot sort (by the concatenation of `CustomerName` and `Description`)
of the full accumulation of all pages — the sort happens once, after all
pages — and that result is pairwise ascending in the sort key. -/
theorem c5_divisions_sorted (env : FetchEnv) (st : SessionTokens) (file : Option Json)
    (reg0 : Bool) (now now2 : Int) (tok : String) (cancel : Nat → Bool) (d : Int)
    (pages : List (List Division)) (fuel : Nat)
    (hacc : st.access_token = some tok) (hra : st.refresh_at > now)
    (hdiv : st.current_division = some d) (hc : ∀ i, cancel i = false)
    (hchain : DivChain env (divisionsPath d) pages) (hfuel : pages.length ≤ fuel) :
    (get_divisions_cmd st file reg0 env now now2 cancel fuel).result =
      .ok (sortDivisions pages.flatten) ∧
    (sortDivisions pages.flatten).Pairwise
      (fun a b => strLe (divKey a) (divKey b) = true) :=
  ⟨(get_divisions_cmd_ok env st file reg0 now now2 tok cancel d pages fuel hacc hra hdiv
      hc hchain hfuel).1,
    sortDivisions_sorted _⟩

/-- Witness for C5: a concrete run whose two divisions arrive out of order and
come back sorted. -/
theorem c5_witness :
    (get_divisions_cmd stFresh none true envDivCmd 0 0 (fun _ => false) 1).result =
      .ok (sortDivisions [divA, divB]) ∧
    (sortDivisions [divA, divB]).Pairwise
      (fun a b => strLe (divKey a) (divKey b) = true) ∧
    sortDivisions [divA, divB] = [divB, divA] := by
  have h := c5_divisions_sorted envDivCmd stFresh none true 0 0 "t" (fun _ => false) 1
    [[divA, divB]] 1 rfl (by decide) rfl (fun _ => rfl)
    (DivChain.last _ _ _ rfl rfl rfl) (by decide)
  refine ⟨h.1, h.2, ?_⟩
  simp [sortDivisions, List.mergeSort, List.merge,
    show strLe (divKey divA) (divKey divB) = false from by decide]

/-- C2: in a `get_transactions` fetch whose count probe answers and whose
first page links onward, if the cancellation flag reads true at (or before)
the check preceding the second page fetch, the command returns the Cancelled
error — the first page's accumulated records are discarded, not returned —
and the registry's reference to the token is cleared. Read index 3 is the
top-of-loop check of iteration 2, the last check before the second page is
fetched (index 0: post-probe check, 1: top of iteration 1, 2: post-batch
check of iteration 1). -/
theorem c2_cancel_before_second_page (env : FetchEnv) (st : SessionTokens)
    (file : Option Json) (reg0 : Bool) (now now2 : Int) (tok : String)
    (cancel : Nat → Bool) (fmt : Nat → Option String) (division : Int)
    (filter : Option String) (cj j1 : Json) (rs1 : List Json) (nxt : String)
    (fuel : Nat)
    (hacc : st.access_token = some tok) (hra : st.refresh_at > now)
    (hcp : env.http (countPath division (filterStr filter)) = .ok cj)
    (hcperr : cj.getField "error" = none)
    (hp1 : env.http (transactionsPath division (filterStr filter)) = .ok j1)
    (hj1err : j1.getField "error" = none)
    (hparse : parseApiResponse j1 = some (rs1, some nxt))
    (hc3 : cancel 3 = true) (hfuel : 2 ≤ fuel) :
    (get_transactions_cmd st file reg0 env now now2 cancel fmt division filter fuel).result =
      .error "Operation cancelled by user" ∧
    (get_transactions_cmd st file reg0 env now now2 cancel fmt division filter fuel).registry =
      false := by
  obtain ⟨f, rfl⟩ : ∃ f, fuel = f + 2 := ⟨fuel - 2, by omega⟩
  have hnoop := refresh_token_noop st file env.refreshHttp now now2 hra
  have hstep :
      ∀ est evs, (txLoop st env cancel fmt est (f + 2)
          (transactionsPath division (filterStr filter)) [] 1 [] evs).result =
          .error "Operation cancelled by user" ∧
        (txLoop st env cancel fmt est (f + 2)
          (transactionsPath division (filterStr filter)) [] 1 [] evs).registry = false := by
    intro est evs
    cases h1 : cancel 1 with
    | true => simp [txLoop, h1]
    | false =>
      cases h2 : cancel 2 with
      | true => simp [txLoop, h1, h2, stateGet, hacc, hp1, hj1err, hparse]
      | false =>
        simp [txLoop, h1, h2, stateGet, hacc, hp1, hj1err, hparse, hc3]
  simp only [get_transactions_cmd, hnoop, stateGet, hacc, hcp, hcperr]
  cases h0 : cancel 0 with
  | true => simp
  | false =>
    simp only [Bool.false_eq_true, if_false]
    cases hcj : Json.asI64 cj with
    | some n =>
      rcases hlo : txLoop st env cancel fmt (some (wrap32 n)) (f + 2)
          (transactionsPath division (filterStr filter)) [] 1 []
          [⟨0, n, "Found " ++ toString n ++ " transactions, starting fetch..."⟩] with
        ⟨res, reg, lops, evs⟩
      have h := hstep (some (wrap32 n))
        [⟨0, n, "Found " ++ toString n ++ " transactions, starting fetch..."⟩]
      rw [hlo] at h
      simpa [hlo] using h
    | none =>
      rcases hlo : txLoop st env cancel fmt none (f + 2)
          (transactionsPath division (filterStr filter)) [] 1 [] [] with ⟨res, reg, lops, evs⟩
      have h := hstep none []
      rw [hlo] at h
      simpa [hlo] using h

/-- Transactions server for the C2 witness: a working probe and a first page
that links onward. -/
def envC2 : FetchEnv :=
  ⟨"A", .error "unused", fun p =>
    if p = countPath 1 "" then .ok (Json.num 5)
    else .ok (mkPage [] (some "A/n2"))⟩

/-- Witness for C2: with the flag already set, the concrete fetch is
cancelled and the registry cleared. -/
theorem c2_witness :
    (get_transactions_cmd stFresh none true envC2 0 0 (fun _ => true) (fun _ => none)
        1 none 2).result = .error "Operation cancelled by user" ∧
    (get_transactions_cmd stFresh none true envC2 0 0 (fun _ => true) (fun _ => none)
        1 none 2).registry = false :=
  c2_cancel_before_second_page envC2 stFresh none true 0 0 "t" (fun _ => true)
    (fun _ => none) 1 none (Json.num 5) (mkPage [] (some "A/n2")) [] "A/n2" 2 rfl
    (by decide) rfl rfl rfl rfl rfl rfl (by decide)

/-- Transactions server for C6: the probe answers the plain integer `42`, and
three pages carry 20, 20 and 2 empty-object rows. -/
def envC6 : FetchEnv :=
  ⟨"A", .error "unused", fun p =>
    if p = countPath 1 "" then .ok (Json.num 42)
    else if p = "/p2" then .ok (mkPage (List.replicate 20 (Json.obj [])) (some "A/p3"))
    else if p = "/p3" then .ok (mkPage (List.replicate 2 (Json.obj [])) none)
    else .ok (mkPage (List.replicate 20 (Json.obj [])) (some "A/p2"))⟩

/-- The same server with a failing count probe. -/
def envC6bad : FetchEnv :=
  ⟨"A", .error "unused", fun p =>
    if p = countPath 1 "" then .error "probe down"
    else if p = "/p2" then .ok (mkPage (List.replicate 20 (Json.obj [])) (some "A/p3"))
    else if p = "/p3" then .ok (mkPage (List.replicate 2 (Json.obj [])) none)
    else .ok (mkPage (List.replicate 20 (Json.obj [])) (some "A/p2"))⟩

/-- C6: with a count probe answering `42` and pages of 20/20/2 records, every
progress event reports a total of 42 and the per-page events report running
counts 20, 40, 42; with a failing probe the fetch still proceeds, returning
all 42 records, and every event reports the unknown-total sentinel `-1`. -/
theorem c6_progress_totals :
    (get_transactions_cmd stFresh none true envC6 0 0 (fun _ => false) (fun _ => none)
        1 none 3).events =
      [⟨0, 42, "Found 42 transactions, starting fetch..."⟩,
        ⟨20, 42, "Fetched 20 of 42 transactions..."⟩,
        ⟨40, 42, "Fetched 40 of 42 transactions..."⟩,
        ⟨42, 42, "Fetched 42 of 42 transactions..."⟩] ∧
    (get_transactions_cmd stFresh none true envC6bad 0 0 (fun _ => false) (fun _ => none)
        1 none 3).events =
      [⟨20, -1, "Fetched 20 transactions so far..."⟩,
        ⟨40, -1, "Fetched 40 transactions so far..."⟩,
        ⟨42, -1, "Fetched 42 transactions so far..."⟩] ∧
    (get_transactions_cmd stFresh none true envC6bad 0 0 (fun _ => false) (fun _ => none)
        1 none 3).result = .ok (List.replicate 42 ⟨[]⟩) :=
  ⟨rfl, rfl, rfl⟩

/-- A session whose refresh deadline has already passed. -/
def stExpired : SessionTokens := ⟨some "t", some "r", 0, none⟩

/-- Transactions server for the C3 counterexample: a refresh exchange that
would succeed, a failing probe, and two pages. -/
def envC3 : FetchEnv :=
  ⟨"A", .ok (Json.obj [("access_token", Json.str "t2"), ("refresh_token", Json.str "r2")]),
    fun p =>
      if p = countPath 1 "" then .error "down"
      else if p = "/n2" then .ok (mkPage [] none)
      else .ok (mkPage [] (some "A/n2"))⟩

/-- Counterexample to C3 as stated: `get` on a session whose refresh deadline
has passed (refresh_at = 0) performs exactly one HTTP GET and no token
exchange — it never refreshes; and a whole two-page fetch performs exactly
one token exchange, up front before the first GET, none between page
requests. -/
theorem c3_counterexample :
    (stateGet stExpired "/p" (.ok (Json.obj []))).1 = [NetOp.httpGet "/p"] ∧
    (get_transactions_cmd stExpired none true envC3 10 10 (fun _ => false) (fun _ => none)
        1 none 2).ops =
      [NetOp.tokenExchange, NetOp.httpGet (countPath 1 ""),
        NetOp.httpGet (transactionsPath 1 ""), NetOp.httpGet "/n2"] :=
  ⟨rfl, rfl⟩

/-- C3 (amended): `get(path)` does not refresh the session — it attaches the
bearer token and issues at most the single GET, never a token exchange; the
session refresh is a single attempt made once per command before the fetch
loop, so every token exchange a `get_transactions` run performs belongs to
that one pre-loop `refresh_token` call (at most one), and none happens
between page requests. -/
theorem c3_get_never_refreshes :
    (∀ (st : SessionTokens) (path : String) (http : Except String Json),
      ((stateGet st path http).1).filter isExchange = []) ∧
    (∀ (st : SessionTokens) (file : Option Json) (http : Except String Json) (now now2 : Int),
      (refresh_token st file http now now2).ops = [] ∨
      (refresh_token st file http now now2).ops = [NetOp.tokenExchange]) ∧
    (∀ (st : SessionTokens) (file : Option Json) (reg0 : Bool) (env : FetchEnv)
        (now now2 : Int) (cancel : Nat → Bool) (fmt : Nat → Option String)
        (division : Int) (filter : Option String) (fuel : Nat),
      ((get_transactions_cmd st file reg0 env now now2 cancel fmt division filter fuel).ops).filter
          isExchange =
        ((refresh_token st file env.refreshHttp now now2).ops).filter isExchange) := by
  refine ⟨stateGet_no_exchange, refresh_token_ops, ?_⟩
  intro st file reg0 env now now2 cancel fmt division filter fuel
  rcases hr : refresh_token st file env.refreshHttp now now2 with ⟨st1, file1, res, rops⟩
  simp only [get_transactions_cmd, hr]
  cases res with
  | error e => simp
  | ok u =>
    rcases hsg : stateGet st1 (countPath division (filterStr filter))
        (env.http (countPath division (filterStr filter))) with ⟨cops, cres⟩
    have hcf : cops.filter isExchange = [] := by
      have h := stateGet_no_exchange st1 (countPath division (filterStr filter))
        (env.http (countPath division (filterStr filter)))
      rw [hsg] at h
      exact h
    cases cres with
    | error e =>
      rcases hlo : txLoop st1 env cancel fmt none fuel
          (transactionsPath division (filterStr filter)) [] 0 [] [] with ⟨res2, reg, lops, evs⟩
      have hlf : lops.filter isExchange = [] := by
        have h := txLoop_no_exchange st1 env cancel fmt none fuel
          (transactionsPath division (filterStr filter)) [] 0 [] []
        rw [hlo] at h
        simpa using h
      simp [hsg, hlo, List.filter_append, hcf, hlf]
    | ok cj =>
      by_cases h0 : cancel 0
      · simp [hsg, h0, List.filter_append, hcf]
      · cases hcj : Json.asI64 cj with
        | some n =>
          rcases hlo : txLoop st1 env cancel fmt (some (wrap32 n)) fuel
              (transactionsPath division (filterStr filter)) [] 1 []
              [⟨0, n, "Found " ++ toString n ++ " transactions, starting fetch..."⟩] with
            ⟨res2, reg, lops, evs⟩
          have hlf : lops.filter isExchange = [] := by
            have h := txLoop_no_exchange st1 env cancel fmt (some (wrap32 n)) fuel
              (transactionsPath division (filterStr filter)) [] 1 []
              [⟨0, n, "Found " ++ toString n ++ " transactions, starting fetch..."⟩]
            rw [hlo] at h
            simpa using h
          simp [hsg, h0, hcj, hlo, List.filter_append, hcf, hlf]
        | none =>
          rcases hlo : txLoop st1 env cancel fmt none fuel
              (transactionsPath division (filterStr filter)) [] 1 [] [] with
            ⟨res2, reg, lops, evs⟩
          have hlf : lops.filter isExchange = [] := by
            have h := txLoop_no_exchange st1 env cancel fmt none fuel
              (transactionsPath division (filterStr filter)) [] 1 [] []
            rw [hlo] at h
            simpa using h
          simp [hsg, h0, hcj, hlo, List.filter_append, hcf, hlf]

/-- Transactions server for the C4 counterexample: one record holding an
array-valued field and an object-valued field. -/
def envC4 : FetchEnv :=
  ⟨"A", .error "unused", fun p =>
    if p = countPath 1 "" then .error "down"
    else .ok (mkPage [Json.obj [("Weird", Json.arr [Json.num 1]),
      ("Nested", Json.obj [("x", Json.num 2)])]] none)⟩

/-- Counterexample to C4 as stated: a transaction field holding a nested
structure — an array — is NOT discarded; it survives into the returned
`Transaction`'s data (only the object-valued field is dropped). -/
theorem c4_counterexample :
    (get_transactions_cmd stFresh none true envC4 0 0 (fun _ => false) (fun _ => none)
        1 none 1).result =
      .ok [⟨[("Weird", Json.arr [Json.num 1])]⟩] :=
  rfl

/-- C4 (amended): for every transaction record returned by
`get_transactions`, each field is transformed by `processField`: a string
field whose value matches the embedded-epoch-millisecond date pattern is
rewritten to the converted timestamp string when the captured digits parse as
an `i64` and the library conversion (`fmt`, modelling
`chrono::DateTime::<Utc>::from_timestamp` + `to_rfc3339`) succeeds, and kept
verbatim otherwise; a field holding a nested OBJECT is discarded; array
fields and all other field types (string without a match, number, boolean,
null) pass through unchanged; and the records a fetch returns are exactly the
pages' rows mapped through this per-field processing. -/
theorem c4_transaction_field_processing :
    (∀ (fmt : Nat → Option String) (k s ds : String) (ms : Nat) (out : String),
      findDateCapture s = some ds → parseI64 ds = some ms → fmt (ms / 1000) = some out →
      processField fmt (k, .str s) = some (k, .str out)) ∧
    (∀ (fmt : Nat → Option String) (k s : String),
      findDateCapture s = none → processField fmt (k, .str s) = some (k, .str s)) ∧
    (∀ (fmt : Nat → Option String) (k s ds : String),
      findDateCapture s = some ds → parseI64 ds = none →
      processField fmt (k, .str s) = some (k, .str s)) ∧
    (∀ (fmt : Nat → Option String) (k s ds : String) (ms : Nat),
      findDateCapture s = some ds → parseI64 ds = some ms → fmt (ms / 1000) = none →
      processField fmt (k, .str s) = some (k, .str s)) ∧
    (∀ (fmt : Nat → Option String) (k : String) (fs : List (String × Json)),
      processField fmt (k, .obj fs) = none) ∧
    (∀ (fmt : Nat → Option String) (k : String),
      (∀ xs, processField fmt (k, .arr xs) = some (k, .arr xs)) ∧
      (∀ n, processField fmt (k, .num n) = some (k, .num n)) ∧
      (∀ b, processField fmt (k, .bool b) = some (k, .bool b)) ∧
      processField fmt (k, .null) = some (k, .null)) ∧
    (∀ (env : FetchEnv) (st : SessionTokens) (file : Option Json) (reg0 : Bool)
        (now now2 : Int) (tok : String) (cancel : Nat → Bool) (fmt : Nat → Option String)
        (division : Int) (filter : Option String) (pages : List (List Json)) (fuel : Nat),
      st.access_token = some tok → st.refresh_at > now → (∀ i, cancel i = false) →
      TxChain env (transactionsPath division (filterStr filter)) pages →
      pages.length ≤ fuel →
      (get_transactions_cmd st file reg0 env now now2 cancel fmt division filter fuel).result =
        .ok ((pages.map fun rs => rs.filterMap (processRecord fmt)).flatten)) := by
  refine ⟨?_, ?_, ?_, ?_, ?_, ?_, ?_⟩
  · intro fmt k s ds ms out h1 h2 h3
    simp [processField, h1, h2, h3]
  · intro fmt k s h1
    simp [processField, h1]
  · intro fmt k s ds h1 h2
    simp [processField, h1, h2]
  · intro fmt k s ds ms h1 h2 h3
    simp [processField, h1, h2, h3]
  · intro fmt k fs
    rfl
  · intro fmt k
    exact ⟨fun xs => rfl, fun n => rfl, fun b => rfl, rfl⟩
  · intro env st file reg0 now now2 tok cancel fmt division filter pages fuel hacc hra hc
      hchain hfuel
    exact (get_transactions_cmd_ok env st file reg0 now now2 tok cancel fmt division filter
      pages fuel hacc hra hc hchain hfuel).1

/-- Timestamp conversion used by the C4 witness: defined at the single second
value the witness feeds it. -/
def fmtW : Nat → Option String :=
  fun t => if t = 1609459200 then some "2021-01-01T00:00:00+00:00" else none

/-- Witness for the amended C4: a matching date string is rewritten, a plain
string is kept, an object field is dropped, an array field passes through. -/
theorem c4_witness :
    processField fmtW ("DueDate", .str "/Date(1609459200000)/") =
      some ("DueDate", .str "2021-01-01T00:00:00+00:00") ∧
    processField fmtW ("Notes", .str "no date here") = some ("Notes", .str "no date here") ∧
    processField fmtW ("Nested", .obj [("x", Json.num 2)]) = none ∧
    processField fmtW ("Weird", .arr [Json.num 1]) = some ("Weird", .arr [Json.num 1]) :=
  ⟨c4_transaction_field_processing.1 fmtW "DueDate" "/Date(1609459200000)/"
      "1609459200000" 1609459200000 "2021-01-01T00:00:00+00:00" rfl rfl rfl,
    c4_transaction_field_processing.2.1 fmtW "Notes" "no date here" rfl,
    c4_transaction_field_processing.2.2.2.2.1 fmtW "Nested" [("x", Json.num 2)],
    (c4_transaction_field_processing.2.2.2.2.2.1 fmtW "Weird").1 [Json.num 1]⟩

end ExactGui
